import Mathlib

/-!
Shallow embedding of the DigitalAvator ASCII-art pipeline
(`src/main.py`, class `AsciiArtGenerator`; the standalone script
`src/test.py` duplicates the same functions verbatim).

Modelling conventions:
* 8-bit samples are `Nat` values in `[0, 255]`.
* Python / numpy floating-point arithmetic is modelled exactly: `float`
  expressions built from `+ - * /` are `ℚ`; the gamma power `v ** gamma`
  needs a real exponent and is `Real.rpow` on `ℝ`.
* `int(x)` (Python), `.astype(np.uint8)` and `.astype(np.int32)` (numpy)
  all truncate toward zero; every value they are applied to here is
  nonnegative, so they are modelled as `Int.floor` followed by `Int.toNat`.
* `PIL.Image.resize((tw, th), LANCZOS)` is modelled as an abstract
  resampling function: its sample values are unconstrained, but PIL
  guarantees the result has exactly `th` rows of `tw` samples each, and
  raises `ValueError` when `tw = 0` or `th = 0` (Pillow:
  "height and width must be > 0").  The error path is part of the model;
  the Lanczos kernel itself is irrelevant to every claim.
* `generate_ascii_art` wraps its whole body in `try/except` and re-raises
  every failure as a single `RuntimeError`; the repository defines no
  other exception class.  The exception kinds that the specification
  names (`InvalidParameterError`, `ImageDecodeError`) appear in the
  model's error type so that statements about them can be written, but
  the code only ever produces `RuntimeError`.
-/

namespace DigitalAvator

/-- The fixed character ramp `ASCII_CHARS` of `src/main.py` line 24 /
`src/test.py` line 6, written densest first.  Characters that the
verification tooling treats specially are written with `\xNN` escapes:
`\x7b\x7d` are the two braces, `\x22` the double quote, `\x60` the
backtick, `\x27` the apostrophe. -/
def ASCII_CHARS : String :=
  "@$B%8&WM#*oahkbdpqwmZO0QLCJUYXzcvunxrjft/\\|()1\x7b\x7d[]?-_+~<>i!lI;:,\x22^\x60\x27. "

/-- Contrast adjustment, `src/main.py` lines 44-47:
`img = (img - 128) * contrast + 128; img = np.clip(img, 0, 255).astype(np.uint8)`.
The clip bounds the value into `[0, 255]`; the `uint8` cast truncates. -/
def contrastAdjust (contrast : ℚ) (v : ℕ) : ℕ :=
  (⌊min 255 (max 0 (((v : ℚ) - 128) * contrast + 128))⌋).toNat

/-- Target height of the resize, `src/main.py` lines 51-54:
`aspect_ratio = height / width; new_height = int(output_width * aspect_ratio * 0.5)`.
Python `int` truncates toward zero; the value is nonnegative. -/
def new_height (output_width w h : ℕ) : ℕ :=
  (⌊(output_width : ℚ) * ((h : ℚ) / (w : ℚ)) * (1/2)⌋).toNat

/-- The per-sample index map of `src/main.py` lines 65-69 on an
already-normalized value `x`: `(x ** gamma * (char_length - 1))`, before
the `int32` truncation.  `char_length - 1 = 69`. -/
noncomputable def mapIndex (gamma x : ℝ) : ℤ :=
  ⌊x ^ gamma * ((ASCII_CHARS.length - 1 : ℕ) : ℝ)⌋

/-- Character index of one 8-bit sample, `src/main.py` lines 63-69:
normalize by `/ 255.0`, apply `** gamma`, scale by `char_length - 1`,
truncate with `.astype(np.int32)` (nonnegative, hence floor). -/
noncomputable def charIndex (gamma : ℝ) (v : ℕ) : ℕ :=
  (mapIndex gamma ((v : ℝ) / 255)).toNat

/-- Ramp lookup `self.ASCII_CHARS[i]` (`src/main.py` line 72).  The index
is always in range (see the invariant theorems); the default only makes
the function total. -/
def asciiCharAt (i : ℕ) : Char :=
  ASCII_CHARS.toList.getD i ' '

/-- Splitting of the character stream into lines, `src/main.py` line 75:
`[ascii_str[i:i+output_width] for i in range(0, len(ascii_str), output_width)]`.
(`range` with step 0 raises in Python; the model returns `[]` there.) -/
def chunks (w : ℕ) (s : List Char) : List (List Char) :=
  if h : w = 0 ∨ s = [] then []
  else s.take w :: chunks w (s.drop w)
termination_by s.length
decreasing_by
  push_neg at h
  obtain ⟨hw, hs⟩ := h
  have hpos : 0 < s.length := List.length_pos.mpr hs
  simp only [List.length_drop]
  omega

/-- Post-resize stage of `generate_ascii_art`, `src/main.py` lines 60-75:
flatten the resized sample grid row-major, map each sample to its ramp
character, and split into lines of `output_width`. -/
noncomputable def generate_ascii_art (gamma : ℝ) (resized : List (List ℕ))
    (output_width : ℕ) : List (List Char) :=
  chunks output_width (resized.flatten.map fun v => asciiCharAt (charIndex gamma v))

/-- Error kinds.  `RuntimeError` is the only kind the code can produce
(`generate_ascii_art`, `save_ascii_text`, `save_ascii_image` and
`_get_font` each end in `except Exception as e: raise RuntimeError(...)`).
`InvalidParameterError` and `ImageDecodeError` are the kinds named by the
specification; no class of either name exists in the repository. -/
inductive ErrKind
  | RuntimeError
  | InvalidParameterError
  | ImageDecodeError
deriving DecidableEq

/-- Outcome of `Image.open(...).convert('L')` (`src/main.py` lines 40-41):
either a decoded grayscale image of size `w × h` with its row-major
samples, or a decode failure (missing/corrupt file). -/
inductive DecodeResult
  | ok (w h : ℕ) (pixels : List (List ℕ))
  | fail

/-- Whole-procedure model of `generate_ascii_art` (`src/main.py`
lines 36-78) including its error flow.  `resample` abstracts
`img.resize((tw, th), LANCZOS)` as a function of the contrast-adjusted
input and the target size.  Failure branches, all wrapped into
`RuntimeError` by the catch-all `except`:
* decode failure (`Image.open` raises);
* `w = 0` (`aspect_ratio = height / width` raises `ZeroDivisionError`);
* a zero target dimension (`resize` raises `ValueError`
  "height and width must be > 0"); `output_width = 0` always lands here
  because it forces `new_height = 0`. -/
noncomputable def convertResult (contrast : ℚ) (gamma : ℝ)
    (resample : List (List ℕ) → ℕ → ℕ → List (List ℕ))
    (decoded : DecodeResult) (output_width : ℕ) :
    Except ErrKind (List (List Char)) :=
  match decoded with
  | .fail => .error .RuntimeError
  | .ok w h px =>
    if w = 0 then .error .RuntimeError
    else if output_width = 0 ∨ new_height output_width w h = 0 then
      .error .RuntimeError
    else
      .ok (generate_ascii_art gamma
        (resample (px.map (List.map (contrastAdjust contrast)))
          output_width (new_height output_width w h))
        output_width)

/-- Output files written by one invocation of `AsciiArtUI.generate_ascii`
(`src/main.py` lines 536-564): the text and PNG files are written only
after `generate_ascii_art` has returned successfully; when it raises,
the handler reports the error and nothing is written. -/
def outputFilesWritten (result : Except ErrKind (List (List Char)))
    (saveText saveImage : Bool) : List String :=
  match result with
  | .error _ => []
  | .ok _ =>
    (if saveText then ["ascii.txt"] else []) ++
      (if saveImage then ["ascii.png"] else [])

/-- A resolved PIL font object.  `getsizeA` is `font.getsize("A")` when
the font object has a `getsize` attribute, `none` otherwise
(`hasattr(font, 'getsize')`, `src/main.py` line 97). -/
structure PILFont where
  getsizeA : Option (ℕ × ℕ)

/-- Character cell size, `src/main.py` lines 96-101: measure the glyph
"A" when possible, else the fixed fallback `(6, 12)`. -/
def charSize (font : PILFont) : ℕ × ℕ :=
  match font.getsizeA with
  | some wh => wh
  | none => (6, 12)

/-- Model of `save_ascii_image` (`src/main.py` lines 89-130) up to the
allocation of the output bitmap: the observable is the `(width, height)`
passed to `Image.new('RGB', ...)`, namely
`(char_width * len(ascii_lines[0]), char_height * len(ascii_lines))`.
An empty `ascii_lines` makes `ascii_lines[0]` raise `IndexError`, which
the catch-all turns into `RuntimeError`.  No other validation is
performed.  The PNG encode of the bitmap is I/O outside the model. -/
def save_ascii_image (font : PILFont) (ascii_lines : List (List Char)) :
    Except ErrKind (ℕ × ℕ) :=
  match ascii_lines with
  | [] => .error .RuntimeError
  | l0 :: rest =>
    .ok ((charSize font).1 * l0.length, (charSize font).2 * (l0 :: rest).length)

/-- First successful attempt in an ordered list of font-loading attempts
(`for path in ...: try: font = ImageFont.truetype(...); break`). -/
def firstSome (attempts : List (Option PILFont)) : Option PILFont :=
  (attempts.filterMap id).head?

/-- Font resolution `_get_font` (`src/main.py` lines 139-168, cache
aside): try the platform font paths in order, then the common monospace
family names in order, then `ImageFont.load_default()`.  First success
wins.  `builtin` models `load_default()`, which always returns a font. -/
def get_font (pathAttempts nameAttempts : List (Option PILFont))
    (builtin : PILFont) : PILFont :=
  match firstSome pathAttempts with
  | some f => f
  | none =>
    match firstSome nameAttempts with
    | some f => f
    | none => builtin

/-! Helper lemmas. -/

theorem chunks_eq_of_ne (w : ℕ) (s : List Char) (hw : w ≠ 0) (hs : s ≠ []) :
    chunks w s = s.take w :: chunks w (s.drop w) := by
  rw [chunks]
  rw [dif_neg]
  push_neg
  exact ⟨hw, hs⟩

theorem chunks_exact (w : ℕ) (hw : w ≠ 0) :
    ∀ (n : ℕ) (s : List Char), s.length = n * w →
      (chunks w s).length = n ∧ ∀ l ∈ chunks w s, l.length = w := by
  intro n
  induction n with
  | zero =>
    intro s hs
    have hnil : s = [] := List.eq_nil_of_length_eq_zero (by simpa using hs)
    subst hnil
    rw [chunks]
    simp
  | succ n ih =>
    intro s hs
    have hw1 : 1 ≤ w := Nat.one_le_iff_ne_zero.mpr hw
    have hsne : s ≠ [] := by
      intro hnil
      subst hnil
      simp at hs
      omega
    rw [chunks_eq_of_ne w s hw hsne]
    have hdrop : (s.drop w).length = n * w := by
      simp only [List.length_drop, hs, Nat.succ_mul]
      omega
    obtain ⟨ihlen, ihall⟩ := ih (s.drop w) hdrop
    refine ⟨by simp [ihlen], ?_⟩
    intro l hl
    rcases List.mem_cons.mp hl with hl | hl
    · subst hl
      rw [List.length_take]
      have : w ≤ s.length := by rw [hs, Nat.succ_mul]; omega
      omega
    · exact ihall l hl

theorem flatten_length_of_rows (ow : ℕ) :
    ∀ (L : List (List ℕ)), (∀ r ∈ L, r.length = ow) →
      L.flatten.length = L.length * ow := by
  intro L
  induction L with
  | nil => intro _; simp
  | cons r rest ih =>
    intro hrow
    have hr : r.length = ow := hrow r (List.mem_cons_self r rest)
    have hrest : ∀ x ∈ rest, x.length = ow := fun x hx => hrow x (List.mem_cons_of_mem r hx)
    simp [List.flatten_cons, hr, ih hrest, Nat.succ_mul, Nat.add_comm]

/-- Length of the character stream built at `src/main.py` line 72 from a
resized grid whose rows all have length `ow`. -/
theorem stream_length (gamma : ℝ) (ow : ℕ) (resized : List (List ℕ))
    (hrow : ∀ r ∈ resized, r.length = ow) :
    (resized.flatten.map fun v => asciiCharAt (charIndex gamma v)).length =
      resized.length * ow := by
  rw [List.length_map]
  exact flatten_length_of_rows ow resized hrow

theorem generate_ascii_art_shape (gamma : ℝ) (ow : ℕ) (resized : List (List ℕ))
    (how : ow ≠ 0) (hrow : ∀ r ∈ resized, r.length = ow) :
    (generate_ascii_art gamma resized ow).length = resized.length ∧
      ∀ l ∈ generate_ascii_art gamma resized ow, l.length = ow := by
  unfold generate_ascii_art
  exact chunks_exact ow how resized.length _ (stream_length gamma ow resized hrow)

/-! Claim theorems. -/

/-- C2, counterexample: the claim says `newHeight = round(outputWidth *
(h / w) * 0.5)` and `newHeight >= 1`.  The code uses Python `int`, which
truncates: for a 4×3 image at `outputWidth = 4` the value is `1.5`, the
code produces `1` while rounding to nearest produces `2`; and for a
100×1 image at `outputWidth = 10` the code produces `newHeight = 0`. -/
theorem c2_counterexample :
    new_height 4 4 3 ≠ (round ((4 : ℚ) * ((3 : ℚ) / (4 : ℚ)) * (1/2))).toNat ∧
      new_height 10 100 1 = 0 := by
  constructor
  · rw [show new_height 4 4 3 = 1 by unfold new_height; norm_num]
    rw [show (round ((4 : ℚ) * ((3 : ℚ) / (4 : ℚ)) * (1/2))).toNat = 2 by
      norm_num [round_eq]; rfl]
    decide
  · unfold new_height; norm_num

/-- C2, amended: for every decoded `w × h` source image with `w >= 1`,
the converter computes `newHeight` as the truncation (floor) of
`outputWidth * (h / w) * 0.5`, that is, `outputWidth * h / (2 * w)` in
integer division; no minimum is enforced, so `newHeight = 0` occurs
whenever `outputWidth * h < 2 * w`. -/
theorem c2_amended (w h ow : ℕ) (hw : w ≠ 0) :
    new_height ow w h = ow * h / (2 * w) := by
  unfold new_height
  have hwQ : (w : ℚ) ≠ 0 := Nat.cast_ne_zero.mpr hw
  have hcast : (ow : ℚ) * ((h : ℚ) / (w : ℚ)) * (1/2) =
      ((ow * h : ℕ) : ℚ) / ((2 * w : ℕ) : ℚ) := by
    push_cast
    rw [mul_div_assoc', mul_one, mul_div_assoc', div_div, mul_comm (w : ℚ) 2]
  rw [hcast, Int.floor_toNat, Nat.floor_div_nat, Nat.floor_natCast]

/-- C2, witness for the amended theorem at a 2×3 image, `outputWidth = 4`. -/
theorem c2_amended_witness : (2 : ℕ) ≠ 0 ∧ new_height 4 2 3 = 4 * 3 / (2 * 2) :=
  ⟨by decide, c2_amended 2 3 4 (by decide)⟩

/-- C3, counterexample: the claim says the contrast-adjusted sample is
rounded to nearest.  The code's `.astype(np.uint8)` truncates: at
`v = 101`, `contrast = 1.5` (exactly representable, inside `[0.1, 5]`)
the stretched value is `87.5`; the code produces `87`, rounding to
nearest produces `88`. -/
theorem c3_counterexample :
    contrastAdjust (3/2) 101 ≠
        (round (min 255 (max 0 (((101 : ℚ) - 128) * (3/2) + 128)))).toNat ∧
      (1/10 : ℚ) ≤ 3/2 ∧ (3/2 : ℚ) ≤ 5 ∧ (101 : ℕ) ≤ 255 := by
  refine ⟨?_, by norm_num, by norm_num, by norm_num⟩
  rw [show contrastAdjust (3/2) 101 = 87 by unfold contrastAdjust; norm_num; rfl]
  rw [show (round (min 255 (max 0 (((101 : ℚ) - 128) * (3/2) + 128)))).toNat = 88 by
    norm_num [round_eq]; rfl]
  decide

/-- C3, amended: for every sample `v` in `[0, 255]` and `contrast` in
`[0.1, 5.0]`, the contrast-adjusted sample equals
`clamp((v - 128) * contrast + 128, 0, 255)` truncated toward zero
(floor, not round-to-nearest), and in particular always lies in
`[0, 255]` before further processing. -/
theorem c3_amended (c : ℚ) (v : ℕ) (hv : v ≤ 255) (hc1 : 1/10 ≤ c) (hc2 : c ≤ 5) :
    contrastAdjust c v =
        (⌊min 255 (max 0 (((v : ℚ) - 128) * c + 128))⌋).toNat ∧
      contrastAdjust c v ≤ 255 := by
  refine ⟨rfl, ?_⟩
  unfold contrastAdjust
  rw [Int.toNat_le]
  calc ⌊min 255 (max 0 (((v : ℚ) - 128) * c + 128))⌋
      ≤ ⌊(255 : ℚ)⌋ := Int.floor_le_floor (min_le_left _ _)
    _ = ((255 : ℕ) : ℤ) := by norm_num

/-- C3, witness for the amended theorem at `v = 101`, `contrast = 1.5`. -/
theorem c3_amended_witness :
    (101 : ℕ) ≤ 255 ∧ (1/10 : ℚ) ≤ 3/2 ∧ (3/2 : ℚ) ≤ 5 ∧
      (contrastAdjust (3/2) 101 =
          (⌊min 255 (max 0 (((101 : ℚ) - 128) * (3/2) + 128))⌋).toNat ∧
        contrastAdjust (3/2) 101 ≤ 255) :=
  ⟨by decide, by norm_num, by norm_num,
    c3_amended (3/2) 101 (by decide) (by norm_num) (by norm_num)⟩

/-- C4: for every sample `v` in `[0, 255]` and every `gamma > 0`, the
per-pixel character index lies in `[0, |charset| - 1]` (it is a `Nat`,
so only the upper bound is stated), and the ramp is the fixed non-empty
70-character string running from `@` (densest) to the blank. -/
theorem c4_index_range_and_ramp (gamma : ℝ) (v : ℕ) (hg : 0 < gamma) (hv : v ≤ 255) :
    charIndex gamma v ≤ ASCII_CHARS.length - 1 ∧
      ASCII_CHARS.length = 70 ∧
      ASCII_CHARS.toList.head? = some '@' ∧
      ASCII_CHARS.toList.getLast? = some ' ' := by
  refine ⟨?_, rfl, rfl, by decide⟩
  unfold charIndex mapIndex
  rw [show ASCII_CHARS.length - 1 = 69 from rfl]
  have hx0 : (0 : ℝ) ≤ (v : ℝ) / 255 := by positivity
  have hx1 : (v : ℝ) / 255 ≤ 1 := by
    rw [div_le_one (by norm_num)]
    exact_mod_cast hv
  have hpow : ((v : ℝ) / 255) ^ gamma ≤ 1 := Real.rpow_le_one hx0 hx1 hg.le
  rw [Int.toNat_le]
  calc ⌊((v : ℝ) / 255) ^ gamma * ((69 : ℕ) : ℝ)⌋
      ≤ ⌊(69 : ℝ)⌋ := by
        apply Int.floor_le_floor
        calc ((v : ℝ) / 255) ^ gamma * ((69 : ℕ) : ℝ)
            ≤ 1 * ((69 : ℕ) : ℝ) := mul_le_mul_of_nonneg_right hpow (by norm_num)
          _ = (69 : ℝ) := by norm_num
    _ = ((69 : ℕ) : ℤ) := by norm_num

/-- C4, witness at `gamma = 1`, `v = 128`. -/
theorem c4_index_range_and_ramp_witness :
    (0 : ℝ) < 1 ∧ (128 : ℕ) ≤ 255 ∧
      (charIndex 1 128 ≤ ASCII_CHARS.length - 1 ∧
        ASCII_CHARS.length = 70 ∧
        ASCII_CHARS.toList.head? = some '@' ∧
        ASCII_CHARS.toList.getLast? = some ' ') :=
  ⟨by norm_num, by decide, c4_index_range_and_ramp 1 128 (by norm_num) (by decide)⟩

/-- C5, counterexample: the claim's first wording says that raising
`gamma` above 1 never decreases the mapped index of a pixel with
normalized value in `(0, 1)`.  At `x = 1/2` the index under `gamma = 2`
is `⌊69/4⌋ = 17`, strictly below the index `⌊69/2⌋ = 34` under
`gamma = 1`: raising gamma decreases the index (it darkens the pixel,
moving it toward the dense end of the ramp). -/
theorem c5_counterexample :
    mapIndex 2 (1/2) < mapIndex 1 (1/2) ∧
      (0 : ℝ) < 1/2 ∧ (1/2 : ℝ) < 1 ∧ (1 : ℝ) < 2 := by
  refine ⟨?_, by norm_num, by norm_num, by norm_num⟩
  unfold mapIndex
  rw [show ASCII_CHARS.length - 1 = 69 from rfl]
  rw [Real.rpow_one]
  rw [show ((1 : ℝ)/2) ^ (2 : ℝ) = ((1 : ℝ)/2) ^ (2 : ℕ) by
    rw [← Real.rpow_natCast ((1 : ℝ)/2) 2]; norm_num]
  rw [show ((1 : ℝ)/2) ^ (2 : ℕ) * ((69 : ℕ) : ℝ) = 69/4 by norm_num]
  rw [show (1 : ℝ)/2 * ((69 : ℕ) : ℝ) = 69/2 by norm_num]
  rw [show ⌊(69/4 : ℝ)⌋ = 17 by rw [Int.floor_eq_iff] <;> norm_num]
  rw [show ⌊(69/2 : ℝ)⌋ = 34 by rw [Int.floor_eq_iff] <;> norm_num]
  decide

/-- C5, amended: for fixed `gamma > 0` the map
`x ↦ ⌊x ^ gamma * (R - 1)⌋` is monotone non-decreasing in the
normalized value `x` on `[0, ∞)`; and for a normalized value in
`(0, 1)`, raising `gamma` above 1 never INCREASES the mapped index
relative to `gamma = 1` (the original claim had the direction
reversed). -/
theorem c5_amended (gamma : ℝ) (hg : 0 < gamma) :
    (∀ u x : ℝ, 0 ≤ u → u ≤ x → mapIndex gamma u ≤ mapIndex gamma x) ∧
      (∀ x : ℝ, 0 < x → x < 1 → 1 ≤ gamma → mapIndex gamma x ≤ mapIndex 1 x) := by
  constructor
  · intro u x hu hux
    unfold mapIndex
    apply Int.floor_le_floor
    apply mul_le_mul_of_nonneg_right
    · exact Real.rpow_le_rpow hu hux hg.le
    · exact Nat.cast_nonneg _
  · intro x hx0 hx1 hg1
    unfold mapIndex
    apply Int.floor_le_floor
    apply mul_le_mul_of_nonneg_right
    · exact Real.rpow_le_rpow_of_exponent_ge hx0 hx1.le hg1
    · exact Nat.cast_nonneg _

/-- C5, witness for the amended theorem at `gamma = 1`, values `1/4 ≤ 1/2`. -/
theorem c5_amended_witness :
    (0 : ℝ) < 1 ∧ mapIndex 1 (1/4) ≤ mapIndex 1 (1/2) ∧
      mapIndex 1 (1/2) ≤ mapIndex 1 (1/2) :=
  ⟨by norm_num,
    (c5_amended 1 (by norm_num)).1 (1/4) (1/2) (by norm_num) (by norm_num),
    (c5_amended 1 (by norm_num)).2 (1/2) (by norm_num) (by norm_num) (by norm_num)⟩

/-- C1, counterexample: the claim says that for EVERY image that decodes
successfully and every `outputWidth >= 1`, convert returns a grid of
`newHeight` lines.  A 100×1 image at `outputWidth = 10` decodes fine,
yet `new_height = int(10 * (1/100) * 0.5) = 0`, so `img.resize((10, 0))`
raises `ValueError` and `generate_ascii_art` raises `RuntimeError`
instead of returning any grid. -/
theorem c1_counterexample :
    convertResult 1 1 (fun _ _ _ => []) (.ok 100 1 [[0]]) 10 =
      .error .RuntimeError := by
  have hnh : new_height 10 100 1 = 0 := by unfold new_height; norm_num
  simp only [convertResult]
  rw [if_neg (by decide), if_pos (Or.inr hnh)]

/-- C1, amended: for every image that decodes successfully (with nonzero
width) and every `outputWidth >= 1` such that `newHeight >= 1`, convert
returns a grid of exactly `newHeight` lines, and every line except
possibly the last has length exactly `outputWidth`; when `newHeight = 0`
the resize step raises and convert fails with `RuntimeError` instead.
`hres` is PIL's contract for `resize`: the result of resizing to
`(tw, th)` has `th` rows of `tw` samples each. -/
theorem c1_amended (contrast : ℚ) (gamma : ℝ)
    (resample : List (List ℕ) → ℕ → ℕ → List (List ℕ))
    (w h ow : ℕ) (px : List (List ℕ))
    (hw : w ≠ 0) (how : ow ≠ 0) (hnh : new_height ow w h ≠ 0)
    (hres : ∀ input tw th, (resample input tw th).length = th ∧
      ∀ r ∈ resample input tw th, r.length = tw) :
    ∃ g, convertResult contrast gamma resample (.ok w h px) ow = .ok g ∧
      g.length = new_height ow w h ∧
      ∀ l ∈ g.dropLast, l.length = ow := by
  simp only [convertResult]
  rw [if_neg hw, if_neg (by push_neg; exact ⟨how, hnh⟩)]
  obtain ⟨hlen, hrow⟩ :=
    hres (px.map (List.map (contrastAdjust contrast))) ow (new_height ow w h)
  obtain ⟨glen, gall⟩ := generate_ascii_art_shape gamma ow _ how hrow
  refine ⟨_, rfl, ?_, ?_⟩
  · rw [glen, hlen]
  · intro l hl
    exact gall l (List.dropLast_subset _ hl)

/-- C1, witness for the amended theorem: a 2×2 image at
`outputWidth = 2` (so `newHeight = 1`), with a resample function that
honours PIL's shape contract. -/
theorem c1_amended_witness :
    (2 : ℕ) ≠ 0 ∧ new_height 2 2 2 ≠ 0 ∧
      ∃ g, convertResult 1 1 (fun _ tw th => List.replicate th (List.replicate tw 0))
          (.ok 2 2 [[0, 0], [0, 0]]) 2 = .ok g ∧
        g.length = new_height 2 2 2 ∧
        ∀ l ∈ g.dropLast, l.length = 2 :=
  ⟨by decide, by unfold new_height; norm_num,
    c1_amended 1 1 (fun _ tw th => List.replicate th (List.replicate tw 0))
      2 2 2 [[0, 0], [0, 0]] (by decide) (by decide)
      (by unfold new_height; norm_num)
      (by
        intro input tw th
        refine ⟨List.length_replicate th _, ?_⟩
        intro r hr
        rw [List.eq_of_mem_replicate hr]
        exact List.length_replicate tw 0)⟩

/-- C6, counterexample: the claim says convert fails with
`InvalidParameterError` at `outputWidth = 0` and with `ImageDecodeError`
on a decode failure.  The code has no such exception classes: both
failures surface as the single catch-all `RuntimeError`. -/
theorem c6_counterexample :
    convertResult 1 1 (fun _ _ _ => []) (.ok 2 2 [[0, 0], [0, 0]]) 0 =
        .error .RuntimeError ∧
      ErrKind.RuntimeError ≠ ErrKind.InvalidParameterError ∧
      convertResult 1 1 (fun _ _ _ => []) .fail 200 = .error .RuntimeError ∧
      ErrKind.RuntimeError ≠ ErrKind.ImageDecodeError := by
  refine ⟨?_, by decide, by simp only [convertResult], by decide⟩
  simp only [convertResult]
  rw [if_neg (by decide)]
  simp

/-- C6, amended: convert fails with the catch-all `RuntimeError` (the
only error kind the code can produce) whenever the image cannot be
decoded, whenever `outputWidth = 0`, and whenever the decoded image has
zero width or zero height; the error kind does not distinguish these
cases.  When convert fails with `outputWidth = 0`, no output files are
written (the UI writes the text and PNG files only after convert has
returned). -/
theorem c6_amended (contrast : ℚ) (gamma : ℝ)
    (resample : List (List ℕ) → ℕ → ℕ → List (List ℕ))
    (ow : ℕ) (saveText saveImage : Bool) :
    convertResult contrast gamma resample .fail ow = .error .RuntimeError ∧
      (∀ w h px, convertResult contrast gamma resample (.ok w h px) 0 =
        .error .RuntimeError) ∧
      (∀ h px, convertResult contrast gamma resample (.ok 0 h px) ow =
        .error .RuntimeError) ∧
      (∀ w px, w ≠ 0 → convertResult contrast gamma resample (.ok w 0 px) ow =
        .error .RuntimeError) ∧
      (∀ w h px, outputFilesWritten
        (convertResult contrast gamma resample (.ok w h px) 0)
        saveText saveImage = []) := by
  have hzero : ∀ w h px, convertResult contrast gamma resample (.ok w h px) 0 =
      .error .RuntimeError := by
    intro w h px
    simp only [convertResult]
    by_cases hw : w = 0
    · rw [if_pos hw]
    · rw [if_neg hw]
      simp
  refine ⟨by simp only [convertResult], hzero, ?_, ?_, ?_⟩
  · intro h px
    simp only [convertResult]
    simp
  · intro w px hw
    have hnh : new_height ow w 0 = 0 := by
      unfold new_height
      simp
    simp only [convertResult]
    rw [if_neg hw, if_pos (Or.inr hnh)]
  · intro w h px
    rw [hzero w h px]
    rfl

/-- C6, witness for the amended theorem at concrete parameters. -/
theorem c6_amended_witness :
    convertResult 1 1 (fun _ _ _ => []) .fail 200 = .error .RuntimeError ∧
      convertResult 1 1 (fun _ _ _ => []) (.ok 3 3 [[0]]) 0 = .error .RuntimeError ∧
      convertResult 1 1 (fun _ _ _ => []) (.ok 0 3 [[0]]) 200 = .error .RuntimeError ∧
      convertResult 1 1 (fun _ _ _ => []) (.ok 3 0 [[0]]) 200 = .error .RuntimeError ∧
      outputFilesWritten (convertResult 1 1 (fun _ _ _ => []) (.ok 3 3 [[0]]) 0)
        true true = [] :=
  ⟨(c6_amended 1 1 (fun _ _ _ => []) 200 true true).1,
    (c6_amended 1 1 (fun _ _ _ => []) 200 true true).2.1 3 3 [[0]],
    (c6_amended 1 1 (fun _ _ _ => []) 200 true true).2.2.1 3 [[0]],
    (c6_amended 1 1 (fun _ _ _ => []) 200 true true).2.2.2.1 3 [[0]] (by decide),
    (c6_amended 1 1 (fun _ _ _ => []) 200 true true).2.2.2.2 3 3 [[0]]⟩

/-- C7: for a non-empty list of lines with a non-empty first line, the
renderer allocates an RGB bitmap of width exactly
`charWidth * len(lines[0])` and height exactly
`charHeight * len(lines)`, where the character cell is measured from the
glyph "A" when the font reports metrics and is the fixed fallback
`(6, 12)` otherwise. -/
theorem c7_bitmap_size (font : PILFont) (l0 : List Char) (rest : List (List Char))
    (h0 : l0 ≠ []) :
    save_ascii_image font (l0 :: rest) =
        .ok ((charSize font).1 * l0.length, (charSize font).2 * (l0 :: rest).length) ∧
      (∀ wh, font.getsizeA = some wh → charSize font = wh) ∧
      (font.getsizeA = none → charSize font = (6, 12)) := by
  refine ⟨rfl, ?_, ?_⟩
  · intro wh hwh
    unfold charSize
    rw [hwh]
  · intro hn
    unfold charSize
    rw [hn]

/-- C7, witness: a font measuring "A" at `(6, 12)` and the single line
`"@"`. -/
theorem c7_bitmap_size_witness :
    (['@'] : List Char) ≠ [] ∧
      (save_ascii_image ⟨some (6, 12)⟩ [['@']] =
          .ok ((charSize ⟨some (6, 12)⟩).1 * 1, (charSize ⟨some (6, 12)⟩).2 * 1) ∧
        (∀ wh, (⟨some (6, 12)⟩ : PILFont).getsizeA = some wh →
          charSize ⟨some (6, 12)⟩ = wh) ∧
        ((⟨some (6, 12)⟩ : PILFont).getsizeA = none →
          charSize ⟨some (6, 12)⟩ = (6, 12))) :=
  ⟨by decide, c7_bitmap_size ⟨some (6, 12)⟩ ['@'] [] (by decide)⟩

/-- C8, counterexample: the claim says the renderer itself validates its
input and fails with `InvalidParameterError` on an empty line list or a
zero-length first line.  The code performs no validation: an empty list
fails only through `ascii_lines[0]` raising `IndexError`, re-raised as
the catch-all `RuntimeError`; and for a zero-length first line the
renderer does not fail at all — it proceeds and allocates a zero-width
bitmap. -/
theorem c8_counterexample :
    save_ascii_image ⟨some (6, 12)⟩ [] = .error .RuntimeError ∧
      save_ascii_image ⟨some (6, 12)⟩ [] ≠ .error .InvalidParameterError ∧
      save_ascii_image ⟨some (6, 12)⟩ [[]] = .ok (0, 12) := by
  refine ⟨rfl, ?_, rfl⟩
  simp only [save_ascii_image]
  intro hcontra
  exact absurd (Except.error.inj hcontra) (by decide)

/-- C8, amended: an empty `lines` list makes the renderer fail with the
generic `RuntimeError` (a wrapped `IndexError`, not a typed parameter
validation); a zero-length first line is not validated at all — the
renderer returns a degenerate bitmap of width 0. -/
theorem c8_amended (font : PILFont) (ascii_lines : List (List Char)) :
    (ascii_lines = [] → save_ascii_image font ascii_lines = .error .RuntimeError) ∧
      (∀ rest, ascii_lines = [] :: rest →
        save_ascii_image font ascii_lines =
          .ok (0, (charSize font).2 * ([] :: rest : List (List Char)).length)) := by
  constructor
  · intro hnil
    subst hnil
    rfl
  · intro rest hcons
    subst hcons
    simp [save_ascii_image]

/-- C8, witness for the amended theorem. -/
theorem c8_amended_witness :
    save_ascii_image ⟨none⟩ [] = .error .RuntimeError ∧
      save_ascii_image ⟨none⟩ [[]] =
        .ok (0, (charSize ⟨none⟩).2 * ([[]] : List (List Char)).length) :=
  ⟨(c8_amended ⟨none⟩ []).1 rfl, (c8_amended ⟨none⟩ [[]]).2 [] rfl⟩

/-- C9: font resolution tries the ordered platform font paths, then the
common monospace family names, and returns the first success; when every
attempt fails it returns the built-in default font
(`ImageFont.load_default()`), so resolution always yields a font and the
no-font branch the specification calls `FontResolutionError` is
unreachable while the built-in fallback exists — `get_font` is total and
never produces an error value. -/
theorem c9_resolution_total (pathAttempts nameAttempts : List (Option PILFont))
    (builtin : PILFont) :
    (∀ f, firstSome (pathAttempts ++ nameAttempts) = some f →
        get_font pathAttempts nameAttempts builtin = f) ∧
      (firstSome (pathAttempts ++ nameAttempts) = none →
        get_font pathAttempts nameAttempts builtin = builtin) := by
  unfold get_font firstSome
  rw [List.filterMap_append]
  cases ha : pathAttempts.filterMap id with
  | nil =>
    cases hb : nameAttempts.filterMap id with
    | nil => simp
    | cons x xs => simp
  | cons x xs => simp

/-- C9, witness: first path attempt fails, second succeeds with font
`f`; and the all-fail case returns the built-in font. -/
theorem c9_resolution_total_witness :
    (firstSome ([none, some ⟨some (5, 9)⟩] ++ []) = some ⟨some (5, 9)⟩ →
        get_font [none, some ⟨some (5, 9)⟩] [] ⟨none⟩ = ⟨some (5, 9)⟩) ∧
      get_font [none, some ⟨some (5, 9)⟩] [] ⟨none⟩ = ⟨some (5, 9)⟩ ∧
      get_font [none, none] [none] ⟨none⟩ = ⟨none⟩ :=
  ⟨(c9_resolution_total [none, some ⟨some (5, 9)⟩] [] ⟨none⟩).1 ⟨some (5, 9)⟩,
    (c9_resolution_total [none, some ⟨some (5, 9)⟩] [] ⟨none⟩).1 ⟨some (5, 9)⟩ rfl,
    (c9_resolution_total [none, none] [none] ⟨none⟩).2 rfl⟩

/-- C10: the character stream concatenated at `src/main.py` line 72 has
length exactly `outputWidth * newHeight` (the resized image is exactly
`outputWidth` samples wide and `newHeight` rows tall), and therefore
every line of the returned grid, including the final one, has length
exactly `outputWidth`: the shorter-final-line case the specification
allows never occurs. -/
theorem c10_no_short_final_line (gamma : ℝ) (w h ow : ℕ) (resized : List (List ℕ))
    (how : ow ≠ 0)
    (hlen : resized.length = new_height ow w h)
    (hrow : ∀ r ∈ resized, r.length = ow) :
    (resized.flatten.map fun v => asciiCharAt (charIndex gamma v)).length =
        ow * new_height ow w h ∧
      ∀ l ∈ generate_ascii_art gamma resized ow, l.length = ow := by
  constructor
  · rw [stream_length gamma ow resized hrow, hlen, Nat.mul_comm]
  · exact (generate_ascii_art_shape gamma ow resized how hrow).2

/-- C10, witness: a 2×2 source (`newHeight = 1`) with the resized grid
`[[0, 0]]`. -/
theorem c10_no_short_final_line_witness :
    (2 : ℕ) ≠ 0 ∧ ([[0, 0]] : List (List ℕ)).length = new_height 2 2 2 ∧
      (([[0, 0]] : List (List ℕ)).flatten.map
          (fun v => asciiCharAt (charIndex 1 v))).length = 2 * new_height 2 2 2 ∧
      ∀ l ∈ generate_ascii_art 1 [[0, 0]] 2, l.length = 2 :=
  ⟨by decide, by unfold new_height; norm_num,
    (c10_no_short_final_line 1 2 2 2 [[0, 0]] (by decide)
      (by unfold new_height; norm_num)
      (by intro r hr; simp at hr; rw [hr]; rfl)).1,
    (c10_no_short_final_line 1 2 2 2 [[0, 0]] (by decide)
      (by unfold new_height; norm_num)
      (by intro r hr; simp at hr; rw [hr]; rfl)).2⟩

end DigitalAvator
